import Mathlib

/-
Verification of the klctl device-control program against its design notes.

The development shallowly embeds the Go sources:
  * discoverer.go : the discovery coordinator (`Discover`), an event loop
    selecting over context cancellation, device arrival, the idle timer and
    transport failure;
  * main.go : address resolution (`setupDevices`), and the light-group
    orchestration layer (`fetchLightGroups`, `setLightState`,
    `setLightControlFieldWithValue`, `adjustLightControlField`,
    `getLightControlField`).

Remote calls (fetch / update light group) are modelled by per-device scripted
outcomes, and the operations additionally return the trace of remote calls
performed, so that abort-on-first-failure behaviour is observable.
-/

namespace Klctl

/-! ### Errors -/

/-- Outcome of `ctx.Err()` once a context is done: either the deadline was
exceeded, or the context was canceled for some other reason; the non-deadline
cause is treated as an opaque value. -/
inductive CtxErr where
  | deadlineExceeded : CtxErr
  | canceled (cause : Nat) : CtxErr
deriving DecidableEq, Repr

/-- The error values the program produces: the typed discovery-timeout error
(`discoveryTimeoutError`), a context error propagated unchanged, an opaque
transport failure from the discovery run loop, and the port-validation error
of `setupDevices` (carrying the offending port string). -/
inductive AppError where
  | timeout : AppError
  | ctxErr (e : CtxErr) : AppError
  | transport (e : Nat) : AppError
  | portError (port : List Char) : AppError
deriving DecidableEq, Repr

/-- The `ExitCode` method: among the program's error values only
`discoveryTimeoutError` implements it, returning 1. -/
def AppError.exitCodeOf : AppError → Option Int
  | .timeout => some 1
  | _ => none

/-! ### Discovery coordinator (discoverer.go, `Discover`) -/

/-- Result of `Discover`: the device list together with an optional error
(Go returns the pair `([]Device, error)`). -/
structure DiscoverResult (α : Type) where
  devices : List α
  error : Option AppError
deriving DecidableEq, Repr

/-- One event the select statement in `Discover` can receive: the context's
done channel fired (carrying what `ctx.Err()` reports), a device arrived on
the results channel, the idle timer (`discoveryTimeout`) fired, or the
transport's run loop reported a terminal error. -/
inductive DiscoverEvent (α : Type) where
  | ctxDone (e : CtxErr) : DiscoverEvent α
  | deviceArrived (d : α) : DiscoverEvent α
  | idleTimeout : DiscoverEvent α
  | transportErr (e : Nat) : DiscoverEvent α
deriving DecidableEq, Repr

/-- Outcome of one iteration of the loop in `Discover`: either the function
returns, or the loop continues with a new accumulator. -/
inductive LoopOutcome (α : Type) where
  | done (r : DiscoverResult α) : LoopOutcome α
  | continued (acc : List α) : LoopOutcome α
deriving DecidableEq, Repr

/-- The body of the select statement in `Discover` (discoverer.go lines
172-185), given the accumulated device list and the event the select
delivered.  Each arm is the corresponding Go case:
`ctx.Done()` returns `discoveryTimeoutError` when `ctx.Err()` is
`DeadlineExceeded` and `ctx.Err()` itself otherwise (devices are discarded:
Go returns `nil`); a received device is appended and the loop continues (the
idle timer reset is implicit in the event model); the idle timer's expiry
returns the accumulated devices with no error; a transport error is returned
unchanged. -/
def selectArm {α : Type} (acc : List α) : DiscoverEvent α → LoopOutcome α
  | .ctxDone e =>
      if e = CtxErr.deadlineExceeded then .done ⟨[], some AppError.timeout⟩
      else .done ⟨[], some (AppError.ctxErr e)⟩
  | .deviceArrived d => .continued (acc ++ [d])
  | .idleTimeout => .done ⟨acc, none⟩
  | .transportErr e => .done ⟨[], some (AppError.transport e)⟩

/-- The event loop of `Discover`, run over the sequence of events delivered
by the select statement.  `none` means the trace was exhausted with the loop
still running. -/
def discoverLoop {α : Type} : List α → List (DiscoverEvent α) → Option (DiscoverResult α)
  | _, [] => none
  | acc, ev :: rest =>
      match selectArm acc ev with
      | .done r => some r
      | .continued acc2 => discoverLoop acc2 rest

/-- Helper: a run consisting of device arrivals followed by idle-timer expiry
returns the accumulator extended by the arrivals, in order, with no error. -/
theorem discoverLoop_arrivals_idle {α : Type} (ds : List α) :
    ∀ acc : List α,
      discoverLoop acc (ds.map DiscoverEvent.deviceArrived ++ [DiscoverEvent.idleTimeout]) =
        some ⟨acc ++ ds, none⟩ := by
  induction ds with
  | nil => intro acc; simp [discoverLoop, selectArm]
  | cons d rest ih =>
      intro acc
      simpa [discoverLoop, selectArm] using ih (acc ++ [d])

/-- The property asserted by the spec for the ordering of the select cases:
whenever the context-done event (with deadline exceeded) and the idle-timer
event are both ready, the select always resolves the iteration to the
timeout failure — i.e. the cancellation case preempts the idle case.  In Go,
a `select` with several ready cases chooses among them via a uniform
pseudo-random selection (Go specification, "Select statements"); textual
case order gives no priority, so any ready event may be the one delivered. -/
def deadlineCheckedBeforeIdle : Prop :=
  ∀ (ready : List (DiscoverEvent Nat)) (acc : List Nat) (ev : DiscoverEvent Nat),
    DiscoverEvent.ctxDone CtxErr.deadlineExceeded ∈ ready →
    DiscoverEvent.idleTimeout ∈ ready →
    ev ∈ ready →
    selectArm acc ev = LoopOutcome.done ⟨[], some AppError.timeout⟩

/-- C1: when the context ends while `Discover` is waiting, the result is the
typed discovery-timeout failure (whose `ExitCode` is the non-zero value 1)
exactly when `ctx.Err()` is deadline-exceeded; any other cancellation cause
is returned unchanged; in both cases no devices are returned, whatever had
been collected so far. -/
theorem discover_ctxDone_classified {α : Type} (acc : List α)
    (rest : List (DiscoverEvent α)) (e : CtxErr) :
    ∃ r : DiscoverResult α,
      discoverLoop acc (DiscoverEvent.ctxDone e :: rest) = some r ∧
      r.devices = [] ∧
      (r.error = some AppError.timeout ↔ e = CtxErr.deadlineExceeded) ∧
      (∀ c : Nat, e = CtxErr.canceled c →
        r.error = some (AppError.ctxErr (CtxErr.canceled c))) ∧
      AppError.exitCodeOf AppError.timeout = some 1 := by
  cases e with
  | deadlineExceeded =>
      exact ⟨⟨[], some AppError.timeout⟩, by simp [discoverLoop, selectArm, AppError.exitCodeOf]⟩
  | canceled c =>
      refine ⟨⟨[], some (AppError.ctxErr (CtxErr.canceled c))⟩, ?_⟩
      simp [discoverLoop, selectArm, AppError.exitCodeOf]

/-- Witness for C1 at concrete inputs: a non-deadline cancellation (cause 7)
observed after two devices had already been collected. -/
theorem discover_ctxDone_classified_witness :
    ∃ r : DiscoverResult Nat,
      discoverLoop [4, 5] [DiscoverEvent.ctxDone (CtxErr.canceled 7)] = some r ∧
      r.devices = [] ∧
      (r.error = some AppError.timeout ↔ CtxErr.canceled 7 = CtxErr.deadlineExceeded) ∧
      (∀ c : Nat, CtxErr.canceled 7 = CtxErr.canceled c →
        r.error = some (AppError.ctxErr (CtxErr.canceled c))) ∧
      AppError.exitCodeOf AppError.timeout = some 1 :=
  discover_ctxDone_classified [4, 5] [] (CtxErr.canceled 7)

/-- C3: a discovery run that ends through idle-timer expiry succeeds with
exactly the devices received so far, in arrival order; in particular a
transport that never emits anything yields the empty list and no error. -/
theorem discover_idle_returns_arrivals {α : Type} (ds : List α) :
    discoverLoop [] (ds.map DiscoverEvent.deviceArrived ++ [DiscoverEvent.idleTimeout]) =
      some ⟨ds, none⟩ ∧
    discoverLoop ([] : List α) [DiscoverEvent.idleTimeout] = some ⟨[], none⟩ := by
  constructor
  · simpa using discoverLoop_arrivals_idle ds []
  · simp [discoverLoop, selectArm]

/-- C4 counterexample: the claim that the cancellation branch always preempts
the idle branch when both are ready is false.  With ready set
`[ctxDone deadlineExceeded, idleTimeout]` the select may deliver
`idleTimeout` (Go chooses uniformly among ready cases), and that iteration
returns successful completion, not the timeout failure. -/
theorem select_deadline_preempts_idle_refuted : ¬ deadlineCheckedBeforeIdle := by
  intro h
  have hc :=
    h [DiscoverEvent.ctxDone CtxErr.deadlineExceeded, DiscoverEvent.idleTimeout]
      [3] DiscoverEvent.idleTimeout (by simp) (by simp) (by simp)
  simp [selectArm] at hc

/-- C4 amended: when the deadline event and the idle event are both ready,
either branch may be taken — there is a ready event whose arm returns the
discovery-timeout failure, and a ready event whose arm returns successful
completion with the collected devices.  Cancellation can preempt a completed
idle window but is not guaranteed to. -/
theorem select_bothReady_eitherBranch {α : Type} (ready : List (DiscoverEvent α))
    (acc : List α)
    (h1 : DiscoverEvent.ctxDone CtxErr.deadlineExceeded ∈ ready)
    (h2 : DiscoverEvent.idleTimeout ∈ ready) :
    (∃ ev ∈ ready, selectArm acc ev = LoopOutcome.done ⟨[], some AppError.timeout⟩) ∧
    (∃ ev ∈ ready, selectArm acc ev = LoopOutcome.done ⟨acc, none⟩) :=
  ⟨⟨_, h1, by simp [selectArm]⟩, ⟨_, h2, rfl⟩⟩

/-- Witness for the amended C4 at a concrete ready set. -/
theorem select_bothReady_eitherBranch_witness :
    (∃ ev ∈ [DiscoverEvent.ctxDone CtxErr.deadlineExceeded,
             DiscoverEvent.idleTimeout (α := Nat)],
        selectArm [3] ev = LoopOutcome.done ⟨[], some AppError.timeout⟩) ∧
    (∃ ev ∈ [DiscoverEvent.ctxDone CtxErr.deadlineExceeded,
             DiscoverEvent.idleTimeout (α := Nat)],
        selectArm [3] ev = LoopOutcome.done ⟨[3], none⟩) :=
  select_bothReady_eitherBranch
    [DiscoverEvent.ctxDone CtxErr.deadlineExceeded, DiscoverEvent.idleTimeout]
    [3] (by simp) (by simp)

/-! ### Lights and the orchestration layer (main.go) -/

/-- Opaque device I/O error (a network-level Go error treated opaquely). -/
abbrev GoErr := Nat

/-- One light of a light group (`keylight.Light`): on-state 0/1, brightness
and temperature, all Go `int`s. -/
structure Light where
  On : Int
  Brightness : Int
  Temperature : Int
deriving DecidableEq, Repr

/-- A device's light group (`keylight.LightGroup`): the ordered lights. -/
structure LightGroup where
  Lights : List Light
deriving DecidableEq, Repr

/-- The `LightState` enum of main.go (`LightOff`, `LightOn`, `LightToggle`). -/
inductive LightState where
  | LightOff : LightState
  | LightOn : LightState
  | LightToggle : LightState
deriving DecidableEq, Repr

/-- The `LightControlField` enum of main.go. -/
inductive LightControlField where
  | ControlBrightness : LightControlField
  | ControlTemperature : LightControlField
deriving DecidableEq, Repr

deriving instance DecidableEq for Except

/-- A device as the orchestration layer sees it: an identity plus the
scripted outcomes of its two remote calls for this invocation.
`fetch` is what `FetchLightGroup` returns; `updateErr` is the error
`UpdateLightGroup` returns (`none` = success; the light group that
`UpdateLightGroup` would return is discarded by every caller in main.go,
so it is not modelled). -/
structure DeviceSpec where
  id : Nat
  fetch : Except GoErr LightGroup
  updateErr : Option GoErr
deriving DecidableEq, Repr

/-- A remote call performed against a device: fetching its light group, or
updating it with a given group.  Operations return their call trace so that
abort-on-first-failure is observable. -/
inductive Effect where
  | fetchCall (dev : Nat) : Effect
  | updateCall (dev : Nat) (lg : LightGroup) : Effect
deriving DecidableEq, Repr

/-- `fetchLightGroups` (main.go lines 201-215): fetch each device's light
group sequentially, in list order, aborting on the first failure.  Returns
the calls performed and either the association of devices to fetched groups
or the first error. -/
def fetchLightGroups : List DeviceSpec → List Effect × Except GoErr (List (DeviceSpec × LightGroup))
  | [] => ([], .ok [])
  | d :: rest =>
      match d.fetch with
      | .error e => ([Effect.fetchCall d.id], .error e)
      | .ok lg =>
          (Effect.fetchCall d.id :: (fetchLightGroups rest).1,
           match (fetchLightGroups rest).2 with
           | .error e => .error e
           | .ok l => .ok ((d, lg) :: l))

/-- The switch in the inner loop of `setLightState` (main.go lines 225-232):
toggle replaces on-state by `1 - On`; off and on assign 0 and 1. -/
def applyState (state : LightState) (l : Light) : Light :=
  match state with
  | .LightToggle => { l with On := 1 - l.On }
  | .LightOff => { l with On := 0 }
  | .LightOn => { l with On := 1 }

/-- The switch in the inner loop of `setLightControlFieldWithValue`
(main.go lines 315-320): assign the value to the selected field. -/
def setField (field : LightControlField) (value : Int) (l : Light) : Light :=
  match field with
  | .ControlBrightness => { l with Brightness := value }
  | .ControlTemperature => { l with Temperature := value }

/-- Reading the selected control field of a light (the switch in
`getLightControlField`, main.go lines 340-345). -/
def fieldOf (field : LightControlField) (l : Light) : Int :=
  match field with
  | .ControlBrightness => l.Brightness
  | .ControlTemperature => l.Temperature

/-- The per-device mutate-and-write loop shared by `setLightState` and
`setLightControlFieldWithValue`: for each device of the fetched map (in the
map's iteration order, which is an explicit parameter here because Go map
iteration order is unspecified), rewrite every light of its group with `f`,
call `UpdateLightGroup` with the rewritten group, and abort on the first
update failure. -/
def updateLoop (f : Light → Light) : List (DeviceSpec × LightGroup) → List Effect × Option GoErr
  | [] => ([], none)
  | (d, lg) :: rest =>
      match d.updateErr with
      | some e => ([Effect.updateCall d.id ⟨lg.Lights.map f⟩], some e)
      | none =>
          (Effect.updateCall d.id ⟨lg.Lights.map f⟩ :: (updateLoop f rest).1,
           (updateLoop f rest).2)

/-- `setLightState` (main.go lines 217-247): fetch all light groups, then
run the mutate-and-write loop with the on-state transition.  `mapOrder` is
the iteration order of the fetched map. -/
def setLightState (lightList : List DeviceSpec) (mapOrder : List (DeviceSpec × LightGroup))
    (state : LightState) : List Effect × Option GoErr :=
  match (fetchLightGroups lightList).2 with
  | .error e => ((fetchLightGroups lightList).1, some e)
  | .ok _ =>
      ((fetchLightGroups lightList).1 ++ (updateLoop (applyState state) mapOrder).1,
       (updateLoop (applyState state) mapOrder).2)

/-- `setLightControlFieldWithValue` (main.go lines 307-331): fetch all light
groups, then write `value` into the selected field of every light of every
device, aborting on the first update failure. -/
def setLightControlFieldWithValue (lightList : List DeviceSpec)
    (mapOrder : List (DeviceSpec × LightGroup)) (field : LightControlField)
    (value : Int) : List Effect × Option GoErr :=
  match (fetchLightGroups lightList).2 with
  | .error e => ((fetchLightGroups lightList).1, some e)
  | .ok _ =>
      ((fetchLightGroups lightList).1 ++ (updateLoop (setField field value) mapOrder).1,
       (updateLoop (setField field value) mapOrder).2)

/-- The double loop of `getLightControlField` (main.go lines 339-349): walk
the fetched map in iteration order and return the selected field of the
first light encountered; 0 when every group is empty. -/
def firstFieldValue (field : LightControlField) : List (DeviceSpec × LightGroup) → Int
  | [] => 0
  | (_, lg) :: rest =>
      match lg.Lights with
      | [] => firstFieldValue field rest
      | l :: _ => fieldOf field l

/-- `getLightControlField` (main.go lines 333-351): fetch all light groups
and read the selected field from the first light of the first group in the
map's iteration order. -/
def getLightControlField (lightList : List DeviceSpec)
    (mapOrder : List (DeviceSpec × LightGroup)) (field : LightControlField) :
    List Effect × Except GoErr Int :=
  match (fetchLightGroups lightList).2 with
  | .error e => ((fetchLightGroups lightList).1, .error e)
  | .ok _ => ((fetchLightGroups lightList).1, .ok (firstFieldValue field mapOrder))

/-- The clamp of `adjustLightControlField` (main.go lines 289-293): values
above 100 become 100, values below 0 become 0. -/
def clamp100 (v : Int) : Int :=
  if v > 100 then 100 else if v < 0 then 0 else v

/-- `adjustLightControlField` (main.go lines 282-296): read the current
field value (one fetch pass), add the change, clamp to [0,100], and hand
the clamped value to `setLightControlFieldWithValue` (a second fetch pass
followed by the update loop).  `orderGet` and `orderSet` are the map
iteration orders of the two passes. -/
def adjustLightControlField (lightList : List DeviceSpec)
    (orderGet orderSet : List (DeviceSpec × LightGroup))
    (field : LightControlField) (change : Int) : List Effect × Option GoErr :=
  match getLightControlField lightList orderGet field with
  | (tr, .error e) => (tr, some e)
  | (tr, .ok value) =>
      (tr ++ (setLightControlFieldWithValue lightList orderSet field (clamp100 (value + change))).1,
       (setLightControlFieldWithValue lightList orderSet field (clamp100 (value + change))).2)

/-- The control field a set/adjust operation does not touch. -/
def otherField : LightControlField → LightControlField
  | .ControlBrightness => .ControlTemperature
  | .ControlTemperature => .ControlBrightness

/-! ### Helper lemmas about the orchestration layer -/

/-- The fetch stage performs only fetch calls. -/
theorem fetchLightGroups_no_update (devs : List DeviceSpec) :
    ∀ ef ∈ (fetchLightGroups devs).1, ∃ i, ef = Effect.fetchCall i := by
  induction devs with
  | nil => intro ef h; simp [fetchLightGroups] at h
  | cons d rest ih =>
      intro ef h
      cases hd : d.fetch with
      | error e =>
          simp [fetchLightGroups, hd] at h
          exact ⟨d.id, h⟩
      | ok lg =>
          simp only [fetchLightGroups, hd, List.mem_cons] at h
          rcases h with h | h
          · exact ⟨d.id, h⟩
          · exact ih ef h

/-- Every update call performed by the update loop writes, for some device
of the iterated map, exactly that device's fetched group with every light
rewritten by `f`. -/
theorem updateLoop_mem_update (f : Light → Light) (order : List (DeviceSpec × LightGroup)) :
    ∀ idv g, Effect.updateCall idv g ∈ (updateLoop f order).1 →
      ∃ p ∈ order, idv = p.1.id ∧ g = LightGroup.mk (p.2.Lights.map f) := by
  induction order with
  | nil => intro idv g h; simp [updateLoop] at h
  | cons p rest ih =>
      obtain ⟨d, lg⟩ := p
      intro idv g h
      cases hu : d.updateErr with
      | some e =>
          simp [updateLoop, hu] at h
          exact ⟨(d, lg), by simp, h.1, h.2⟩
      | none =>
          simp only [updateLoop, hu, List.mem_cons, Effect.updateCall.injEq] at h
          rcases h with ⟨h1, h2⟩ | h
          · exact ⟨(d, lg), by simp, h1, h2⟩
          · obtain ⟨q, hq, h1, h2⟩ := ih idv g h
            exact ⟨q, List.mem_cons_of_mem _ hq, h1, h2⟩

/-- When the update loop succeeds, it has updated every device of the map,
in iteration order, each with its rewritten group. -/
theorem updateLoop_none_trace (f : Light → Light) :
    ∀ order : List (DeviceSpec × LightGroup), (updateLoop f order).2 = none →
      (updateLoop f order).1 =
        order.map (fun p => Effect.updateCall p.1.id ⟨p.2.Lights.map f⟩) := by
  intro order
  induction order with
  | nil => intro _; simp [updateLoop]
  | cons p rest ih =>
      obtain ⟨d, lg⟩ := p
      intro h
      cases hu : d.updateErr with
      | some e => simp [updateLoop, hu] at h
      | none =>
          simp only [updateLoop, hu] at h ⊢
          simp [ih h]

/-- When the update loop fails, the map splits into the successfully updated
devices, the failing device, and untouched devices after it; the call trace
is exactly the successful updates followed by the failing attempt. -/
theorem updateLoop_error_decomp (f : Light → Light) :
    ∀ (order : List (DeviceSpec × LightGroup)) (e : GoErr),
      (updateLoop f order).2 = some e →
      ∃ pre d lg post,
        order = pre ++ (d, lg) :: post ∧
        (∀ p ∈ pre, p.1.updateErr = none) ∧
        d.updateErr = some e ∧
        (updateLoop f order).1 =
          pre.map (fun p => Effect.updateCall p.1.id ⟨p.2.Lights.map f⟩) ++
            [Effect.updateCall d.id ⟨lg.Lights.map f⟩] := by
  intro order
  induction order with
  | nil => intro e h; simp [updateLoop] at h
  | cons p rest ih =>
      obtain ⟨d, lg⟩ := p
      intro e h
      cases hu : d.updateErr with
      | some e2 =>
          simp only [updateLoop, hu, Option.some.injEq] at h
          refine ⟨[], d, lg, rest, by simp, by simp, ?_, ?_⟩
          · rw [hu, h]
          · simp [updateLoop, hu]
      | none =>
          simp only [updateLoop, hu] at h
          obtain ⟨pre, d2, lg2, post, h1, h2, h3, h4⟩ := ih e h
          refine ⟨(d, lg) :: pre, d2, lg2, post, by simp [h1], ?_, h3, ?_⟩
          · intro q hq
            rcases List.mem_cons.mp hq with hq | hq
            · rw [hq]; exact hu
            · exact h2 q hq
          · simp [updateLoop, hu, h4]

/-- If some device's fetch is scripted to fail, the fetch stage fails. -/
theorem fetchLightGroups_error_of_mem :
    ∀ (devs : List DeviceSpec) (d : DeviceSpec) (e : GoErr),
      d ∈ devs → d.fetch = .error e →
      ∃ e2, (fetchLightGroups devs).2 = Except.error e2 := by
  intro devs
  induction devs with
  | nil => intro d e h _; cases h
  | cons b rest ih =>
      intro d e hmem hf
      cases hb : b.fetch with
      | error e2 => exact ⟨e2, by simp [fetchLightGroups, hb]⟩
      | ok lg =>
          rcases List.mem_cons.mp hmem with h | h
          · rw [h] at hf; rw [hf] at hb; cases hb
          · obtain ⟨e2, h2⟩ := ih d e h hf
            exact ⟨e2, by simp [fetchLightGroups, hb, h2]⟩

/-- The value `getLightControlField` reads is the selected field of one
light of the iterated map — or every group of the map is empty. -/
theorem firstFieldValue_from_lights (field : LightControlField) :
    ∀ order : List (DeviceSpec × LightGroup),
      (∀ p ∈ order, p.2.Lights = []) ∨
      ∃ p ∈ order, ∃ l ∈ p.2.Lights, firstFieldValue field order = fieldOf field l := by
  intro order
  induction order with
  | nil => left; intro p hp; cases hp
  | cons p rest ih =>
      obtain ⟨d, lg⟩ := p
      cases hl : lg.Lights with
      | nil =>
          rcases ih with h | h
          · left
            intro q hq
            rcases List.mem_cons.mp hq with h2 | h2
            · rw [h2]; exact hl
            · exact h q h2
          · right
            obtain ⟨q, hq, l, hlmem, hval⟩ := h
            exact ⟨q, List.mem_cons_of_mem _ hq, l, hlmem, by simp [firstFieldValue, hl, hval]⟩
      | cons l0 ls =>
          right
          exact ⟨(d, lg), by simp, l0, by simp [hl], by simp [firstFieldValue, hl]⟩

/-- Writing a field then reading it back yields the written value. -/
theorem fieldOf_setField (field : LightControlField) (v : Int) (l : Light) :
    fieldOf field (setField field v l) = v := by
  cases field <;> simp [fieldOf, setField]

/-- A pointwise-rewritten list is `Forall₂`-related to the original. -/
theorem forall₂_map_self {R : Light → Light → Prop} (f : Light → Light)
    (h : ∀ l, R (f l) l) : ∀ L : List Light, List.Forall₂ R (L.map f) L := by
  intro L
  induction L with
  | nil => simp
  | cons a L ih => exact List.Forall₂.cons (h a) ih

/-- Sample data used by the concrete witnesses below. -/
def sampleLight : Light := ⟨1, 50, 200⟩

def sampleGroup : LightGroup := ⟨[sampleLight]⟩

def sampleDevice : DeviceSpec := ⟨1, .ok sampleGroup, none⟩

/-! ### Claims about the orchestration layer -/

/-- C5: in every batch operation, a fetch failure makes the operation return
that error with no update call ever issued; a device whose scripted fetch
fails makes the fetch stage fail; and when an update fails, the map splits
into devices updated successfully before it (which retain their update),
the failing device, and devices after it that receive no call; finally, on
fetch success the operation is exactly the fetch calls followed by the
update loop. -/
theorem batch_failfast (devs : List DeviceSpec) (order : List (DeviceSpec × LightGroup))
    (state : LightState) (field : LightControlField) (v : Int) :
    (∀ e, (fetchLightGroups devs).2 = .error e →
      setLightState devs order state = ((fetchLightGroups devs).1, some e) ∧
      setLightControlFieldWithValue devs order field v = ((fetchLightGroups devs).1, some e) ∧
      ∀ idv g, Effect.updateCall idv g ∉ (fetchLightGroups devs).1) ∧
    (∀ d ∈ devs, ∀ e, d.fetch = .error e →
      ∃ e2, (fetchLightGroups devs).2 = Except.error e2) ∧
    (∀ (f : Light → Light) (e : GoErr), (updateLoop f order).2 = some e →
      ∃ pre d lg post,
        order = pre ++ (d, lg) :: post ∧
        (∀ p ∈ pre, p.1.updateErr = none) ∧
        d.updateErr = some e ∧
        (updateLoop f order).1 =
          pre.map (fun p => Effect.updateCall p.1.id ⟨p.2.Lights.map f⟩) ++
            [Effect.updateCall d.id ⟨lg.Lights.map f⟩]) ∧
    (∀ l, (fetchLightGroups devs).2 = .ok l →
      setLightState devs order state =
        ((fetchLightGroups devs).1 ++ (updateLoop (applyState state) order).1,
         (updateLoop (applyState state) order).2)) := by
  refine ⟨?_, ?_, ?_, ?_⟩
  · intro e he
    refine ⟨by simp [setLightState, he], by simp [setLightControlFieldWithValue, he], ?_⟩
    intro idv g hmem
    obtain ⟨i, hi⟩ := fetchLightGroups_no_update devs _ hmem
    cases hi
  · intro d hd e he
    exact fetchLightGroups_error_of_mem devs d e hd he
  · intro f e he
    exact updateLoop_error_decomp f order e he
  · intro l hl
    simp [setLightState, hl]

/-- Witness for C5: a two-device list whose second fetch fails returns that
error after the two fetch calls with no update; and a two-entry map whose
second update fails splits with the first device retaining its update. -/
theorem batch_failfast_witness :
    setLightState [sampleDevice, ⟨2, .error 7, none⟩] [] LightState.LightOn =
      ([Effect.fetchCall 1, Effect.fetchCall 2], some 7) ∧
    (∃ pre d lg post,
      ([(sampleDevice, sampleGroup), (⟨3, .ok sampleGroup, some 9⟩, sampleGroup)] :
          List (DeviceSpec × LightGroup)) = pre ++ (d, lg) :: post ∧
      (∀ p ∈ pre, p.1.updateErr = none) ∧
      d.updateErr = some 9 ∧
      (updateLoop (applyState LightState.LightOn)
          [(sampleDevice, sampleGroup), (⟨3, .ok sampleGroup, some 9⟩, sampleGroup)]).1 =
        pre.map (fun p => Effect.updateCall p.1.id
          ⟨p.2.Lights.map (applyState LightState.LightOn)⟩) ++
          [Effect.updateCall d.id ⟨lg.Lights.map (applyState LightState.LightOn)⟩]) := by
  have h := batch_failfast [sampleDevice, ⟨2, .error 7, none⟩]
      [(sampleDevice, sampleGroup), (⟨3, .ok sampleGroup, some 9⟩, sampleGroup)]
      LightState.LightOn LightControlField.ControlBrightness 5
  exact ⟨(h.1 7 (by decide)).1, h.2.2.1 (applyState LightState.LightOn) 9 (by decide)⟩

/-- C8: toggle rewrites each light's on-state to `1 - current`, on to 1 and
off to 0; and a successful `setLightState` writes every device's whole
fetched group back, rewritten light by light, via one update call each. -/
theorem setLightState_transitions (devs : List DeviceSpec)
    (order : List (DeviceSpec × LightGroup)) (state : LightState) :
    (∀ l : Light,
      (applyState LightState.LightToggle l).On = 1 - l.On ∧
      (applyState LightState.LightOn l).On = 1 ∧
      (applyState LightState.LightOff l).On = 0) ∧
    ((setLightState devs order state).2 = none →
      (setLightState devs order state).1 =
        (fetchLightGroups devs).1 ++
          order.map (fun p => Effect.updateCall p.1.id ⟨p.2.Lights.map (applyState state)⟩)) := by
  constructor
  · intro l
    exact ⟨rfl, rfl, rfl⟩
  · intro h
    cases hf : (fetchLightGroups devs).2 with
    | error e => simp [setLightState, hf] at h
    | ok l =>
        simp only [setLightState, hf] at h ⊢
        rw [updateLoop_none_trace (applyState state) order h]

/-- Witness for C8: toggling one device whose single light is on yields an
update writing on-state 0 with brightness and temperature intact. -/
theorem setLightState_transitions_witness :
    (applyState LightState.LightToggle sampleLight).On = 1 - (1 : Int) ∧
    (setLightState [sampleDevice] [(sampleDevice, sampleGroup)] LightState.LightToggle).1 =
      (fetchLightGroups [sampleDevice]).1 ++
        ([(sampleDevice, sampleGroup)].map (fun p => Effect.updateCall p.1.id
          ⟨p.2.Lights.map (applyState LightState.LightToggle)⟩)) := by
  have h := setLightState_transitions [sampleDevice] [(sampleDevice, sampleGroup)]
      LightState.LightToggle
  exact ⟨(h.1 sampleLight).1, h.2 (by decide)⟩

/-- C10: the on-state transitions leave brightness and temperature of every
light exactly as fetched, and writing one control field leaves on-state and
the other field exactly as fetched; consequently every group written back by
`setLightState` agrees with the fetched group on brightness and temperature
light by light, and every group written back by
`setLightControlFieldWithValue` agrees with the fetched group on on-state
and the untouched field light by light. -/
theorem frame_preservation (devs : List DeviceSpec) (order : List (DeviceSpec × LightGroup))
    (state : LightState) (field : LightControlField) (v : Int) :
    (∀ l : Light, (applyState state l).Brightness = l.Brightness ∧
      (applyState state l).Temperature = l.Temperature) ∧
    (∀ l : Light, (setField field v l).On = l.On ∧
      fieldOf (otherField field) (setField field v l) = fieldOf (otherField field) l) ∧
    (∀ idv g, Effect.updateCall idv g ∈ (setLightState devs order state).1 →
      ∃ p ∈ order, idv = p.1.id ∧
        List.Forall₂ (fun l2 l1 => l2.Brightness = l1.Brightness ∧
          l2.Temperature = l1.Temperature) g.Lights p.2.Lights) ∧
    (∀ idv g, Effect.updateCall idv g ∈ (setLightControlFieldWithValue devs order field v).1 →
      ∃ p ∈ order, idv = p.1.id ∧
        List.Forall₂ (fun l2 l1 => l2.On = l1.On ∧
          fieldOf (otherField field) l2 = fieldOf (otherField field) l1)
          g.Lights p.2.Lights) := by
  have happly : ∀ l : Light, (applyState state l).Brightness = l.Brightness ∧
      (applyState state l).Temperature = l.Temperature := by
    intro l; cases state <;> simp [applyState]
  have hset : ∀ l : Light, (setField field v l).On = l.On ∧
      fieldOf (otherField field) (setField field v l) = fieldOf (otherField field) l := by
    intro l; cases field <;> simp [setField, otherField, fieldOf]
  refine ⟨happly, hset, ?_, ?_⟩
  · intro idv g hmem
    cases hf : (fetchLightGroups devs).2 with
    | error e =>
        simp only [setLightState, hf] at hmem
        obtain ⟨i, hi⟩ := fetchLightGroups_no_update devs _ hmem
        cases hi
    | ok l =>
        simp only [setLightState, hf, List.mem_append] at hmem
        rcases hmem with hmem | hmem
        · obtain ⟨i, hi⟩ := fetchLightGroups_no_update devs _ hmem
          cases hi
        · obtain ⟨p, hp, h1, h2⟩ := updateLoop_mem_update (applyState state) order idv g hmem
          refine ⟨p, hp, h1, ?_⟩
          rw [h2]
          exact forall₂_map_self (applyState state) happly p.2.Lights
  · intro idv g hmem
    cases hf : (fetchLightGroups devs).2 with
    | error e =>
        simp only [setLightControlFieldWithValue, hf] at hmem
        obtain ⟨i, hi⟩ := fetchLightGroups_no_update devs _ hmem
        cases hi
    | ok l =>
        simp only [setLightControlFieldWithValue, hf, List.mem_append] at hmem
        rcases hmem with hmem | hmem
        · obtain ⟨i, hi⟩ := fetchLightGroups_no_update devs _ hmem
          cases hi
        · obtain ⟨p, hp, h1, h2⟩ := updateLoop_mem_update (setField field v) order idv g hmem
          refine ⟨p, hp, h1, ?_⟩
          rw [h2]
          exact forall₂_map_self (setField field v) hset p.2.Lights

/-- Witness for C10: the update written by a concrete toggle preserves
brightness and temperature of the single fetched light. -/
theorem frame_preservation_witness :
    (applyState LightState.LightToggle sampleLight).Brightness = sampleLight.Brightness ∧
    (setField LightControlField.ControlBrightness 250 sampleLight).On = sampleLight.On ∧
    (∃ p ∈ ([(sampleDevice, sampleGroup)] : List (DeviceSpec × LightGroup)),
      (1 : Nat) = p.1.id ∧
      List.Forall₂ (fun l2 l1 => l2.Brightness = l1.Brightness ∧
        l2.Temperature = l1.Temperature)
        (LightGroup.mk [⟨0, 50, 200⟩]).Lights p.2.Lights) := by
  have h := frame_preservation [sampleDevice] [(sampleDevice, sampleGroup)]
      LightState.LightToggle LightControlField.ControlBrightness 250
  exact ⟨(h.1 sampleLight).1, (h.2.1 sampleLight).1,
    h.2.2.1 1 ⟨[⟨0, 50, 200⟩]⟩ (by decide)⟩

/-- C2: every update issued by `adjustLightControlField` writes, into the
selected field of every light, the single value `clamp100 (v0 + change)`
where `v0` is the field value read from the first pass (itself the value of
one light of the fetched set, unless no light exists at all); on success the
trace is two fetch passes followed by one such update per device; and every
update issued by `setLightControlFieldWithValue` with user value `n` writes
exactly `n`, for every integer `n`, with no clamping. -/
theorem adjust_and_set_values (devs : List DeviceSpec)
    (orderGet orderSet : List (DeviceSpec × LightGroup)) (field : LightControlField)
    (change n : Int) (fetched : List (DeviceSpec × LightGroup))
    (hf : (fetchLightGroups devs).2 = .ok fetched)
    (hperm : orderGet.Perm fetched) :
    (∀ idv g,
      Effect.updateCall idv g ∈ (adjustLightControlField devs orderGet orderSet field change).1 →
      ∀ l ∈ g.Lights, fieldOf field l = clamp100 (firstFieldValue field orderGet + change)) ∧
    ((adjustLightControlField devs orderGet orderSet field change).2 = none →
      (adjustLightControlField devs orderGet orderSet field change).1 =
        (fetchLightGroups devs).1 ++ ((fetchLightGroups devs).1 ++
          orderSet.map (fun p => Effect.updateCall p.1.id
            ⟨p.2.Lights.map (setField field
              (clamp100 (firstFieldValue field orderGet + change)))⟩))) ∧
    ((∀ p ∈ fetched, p.2.Lights = []) ∨
      ∃ p ∈ fetched, ∃ l ∈ p.2.Lights, firstFieldValue field orderGet = fieldOf field l) ∧
    (∀ idv g,
      Effect.updateCall idv g ∈ (setLightControlFieldWithValue devs orderSet field n).1 →
      ∀ l ∈ g.Lights, fieldOf field l = n) := by
  have hsetmem : ∀ (m : Int) (idv : Nat) (g : LightGroup),
      Effect.updateCall idv g ∈ (setLightControlFieldWithValue devs orderSet field m).1 →
      ∀ l ∈ g.Lights, fieldOf field l = m := by
    intro m idv g hmem l hl
    simp only [setLightControlFieldWithValue, hf, List.mem_append] at hmem
    rcases hmem with hmem | hmem
    · obtain ⟨i, hi⟩ := fetchLightGroups_no_update devs _ hmem
      cases hi
    · obtain ⟨p, hp, h1, h2⟩ := updateLoop_mem_update (setField field m) orderSet idv g hmem
      rw [h2] at hl
      simp only [List.mem_map] at hl
      obtain ⟨l0, _, hl0⟩ := hl
      rw [← hl0]
      exact fieldOf_setField field m l0
  refine ⟨?_, ?_, ?_, hsetmem n⟩
  · intro idv g hmem l hl
    simp only [adjustLightControlField, getLightControlField, hf, List.mem_append] at hmem
    rcases hmem with hmem | hmem
    · obtain ⟨i, hi⟩ := fetchLightGroups_no_update devs _ hmem
      cases hi
    · exact hsetmem (clamp100 (firstFieldValue field orderGet + change)) idv g hmem l hl
  · intro h
    simp only [adjustLightControlField, getLightControlField, hf,
      setLightControlFieldWithValue] at h ⊢
    rw [updateLoop_none_trace _ orderSet h]
  · rcases firstFieldValue_from_lights field orderGet with h | h
    · left
      intro p hp
      exact h p (hperm.mem_iff.mpr hp)
    · right
      obtain ⟨p, hp, l, hl, hval⟩ := h
      exact ⟨p, hperm.mem_iff.mp hp, l, hl, hval⟩

/-- Witness for C2: adjusting brightness by +60 from a light at 50 clamps to
100 and writes 100; setting brightness to the out-of-range value 250 writes
exactly 250. -/
theorem adjust_and_set_values_witness :
    fieldOf LightControlField.ControlBrightness ⟨1, 100, 200⟩ =
      clamp100 (firstFieldValue LightControlField.ControlBrightness
        [(sampleDevice, sampleGroup)] + 60) ∧
    fieldOf LightControlField.ControlBrightness ⟨1, 250, 200⟩ = (250 : Int) := by
  have h := adjust_and_set_values [sampleDevice] [(sampleDevice, sampleGroup)]
      [(sampleDevice, sampleGroup)] LightControlField.ControlBrightness 60 250
      [(sampleDevice, sampleGroup)] (by decide) (List.Perm.refl _)
  refine ⟨h.1 1 ⟨[⟨1, 100, 200⟩]⟩ (by decide) ⟨1, 100, 200⟩ (by decide),
    h.2.2.2 1 ⟨[⟨1, 250, 200⟩]⟩ (by decide) ⟨1, 250, 200⟩ (by decide)⟩

/-! ### Address resolution (main.go, `setupDevices`) -/

/-- Go strings, as character lists. -/
abbrev GoStr := List Char

/-- The `defaultPort` constant of main.go, the string "9123". -/
def defaultPort : GoStr := ['9', '1', '2', '3']

/-- Index of the first occurrence of a byte, -1 when absent (the
`IndexByte` helper `net.SplitHostPort` relies on). -/
def firstIndex : GoStr → Char → Int
  | [], _ => -1
  | a :: rest, c =>
      if a = c then 0
      else if firstIndex rest c < 0 then -1 else firstIndex rest c + 1

/-- Index of the last occurrence of a byte, -1 when absent (the
`LastIndexByte` helper `net.SplitHostPort` relies on). -/
def lastIndex : GoStr → Char → Int
  | [], _ => -1
  | a :: rest, c =>
      if lastIndex rest c ≥ 0 then lastIndex rest c + 1
      else if a = c then 0 else -1

/-- The failure cases of `net.SplitHostPort`, each carrying the address. -/
inductive AddrError where
  | missingPort (addr : GoStr) : AddrError
  | tooManyColons (addr : GoStr) : AddrError
  | missingCloseBracket (addr : GoStr) : AddrError
  | unexpectedOpenBracket (addr : GoStr) : AddrError
  | unexpectedCloseBracket (addr : GoStr) : AddrError
deriving DecidableEq, Repr

/-- `net.SplitHostPort` from the Go standard library: the port starts after
the last colon; a leading `[` introduces a bracketed host ending just before
that colon; otherwise the host (everything before the last colon) must not
itself contain a colon, and no brackets may appear. -/
def splitHostPort (hostPort : GoStr) : Except AddrError (GoStr × GoStr) :=
  let i := lastIndex hostPort ':'
  if i < 0 then .error (.missingPort hostPort)
  else if hostPort.head? = some '[' then
    let e := firstIndex hostPort ']'
    if e < 0 then .error (.missingCloseBracket hostPort)
    else if e + 1 = (hostPort.length : Int) then .error (.missingPort hostPort)
    else if e + 1 = i then
      if 0 ≤ firstIndex (hostPort.drop 1) '[' then .error (.unexpectedOpenBracket hostPort)
      else if 0 ≤ firstIndex (hostPort.drop (e.toNat + 1)) ']' then
        .error (.unexpectedCloseBracket hostPort)
      else .ok ((hostPort.take e.toNat).drop 1, hostPort.drop (i.toNat + 1))
    else if (hostPort.drop (e.toNat + 1)).head? = some ':' then
      .error (.tooManyColons hostPort)
    else .error (.missingPort hostPort)
  else
    let host := hostPort.take i.toNat
    if 0 ≤ firstIndex host ':' then .error (.tooManyColons hostPort)
    else if 0 ≤ firstIndex hostPort '[' then .error (.unexpectedOpenBracket hostPort)
    else if 0 ≤ firstIndex hostPort ']' then .error (.unexpectedCloseBracket hostPort)
    else .ok (host, hostPort.drop (i.toNat + 1))

/-- Decimal digit value of a character, as `strconv` accepts it. -/
def digitVal (c : Char) : Option Nat :=
  if '0' ≤ c ∧ c ≤ '9' then some (c.toNat - '0'.toNat) else none

/-- Accumulate the decimal value of a digit string; fails on a non-digit. -/
def parseDigitsAux : Nat → GoStr → Option Nat
  | acc, [] => some acc
  | acc, c :: rest =>
      match digitVal c with
      | none => none
      | some d => parseDigitsAux (acc * 10 + d) rest

/-- The digit part of `strconv.ParseInt`: at least one digit, all decimal. -/
def parseDigits (s : GoStr) : Option Nat :=
  match s with
  | [] => none
  | _ => parseDigitsAux 0 s

def int64Max : Int := 2 ^ 63 - 1

def int64Min : Int := -(2 ^ 63)

/-- `strconv.Atoi`: an optional sign followed by decimal digits; fails on an
empty string, a non-digit, or a value outside the 64-bit integer range. -/
def atoi (s : GoStr) : Except Unit Int :=
  let core :=
    match s with
    | '-' :: rest => (true, rest)
    | '+' :: rest => (false, rest)
    | _ => (false, s)
  match parseDigits core.2 with
  | none => .error ()
  | some m =>
      let v : Int := if core.1 then -(m : Int) else (m : Int)
      if v < int64Min ∨ int64Max < v then .error () else .ok v

/-- The `keylight.Device` handle `setupDevices` constructs: the host string
and the parsed port. -/
structure KeylightDevice where
  DNSAddr : GoStr
  Port : Int
deriving DecidableEq, Repr

/-- One iteration of the loop in `setupDevices` (main.go lines 55-74):
split host and port, falling back to the whole string plus the default port
when splitting fails; then the port must parse and lie in [1, 65535], else
the validation error (carrying the port string) is returned. -/
def resolveOne (lightAddr : GoStr) : Except GoStr KeylightDevice :=
  let hp :=
    match splitHostPort lightAddr with
    | .ok hp => hp
    | .error _ => (lightAddr, defaultPort)
  match atoi hp.2 with
  | .error _ => .error hp.2
  | .ok p => if p < 1 ∨ 65535 < p then .error hp.2 else .ok ⟨hp.1, p⟩

/-- The loop of `setupDevices` over the supplied addresses: sequential, in
order, aborting on the first validation failure. -/
def resolveAddrs : List GoStr → Except GoStr (List KeylightDevice)
  | [] => .ok []
  | a :: rest =>
      match resolveOne a with
      | .error e => .error e
      | .ok d =>
          match resolveAddrs rest with
          | .error e => .error e
          | .ok ds => .ok (d :: ds)

/-- What `setupDevices` produces: the device list, the error (if any), and
whether `Discover` was invoked. -/
structure SetupOutcome where
  devices : List KeylightDevice
  error : Option AppError
  discoveryRan : Bool
deriving DecidableEq, Repr

/-- `setupDevices` (main.go lines 52-81): resolve the explicit addresses;
when none were supplied, delegate to `Discover` and return its result
(modelled by the `discoverResult` parameter) unchanged. -/
def setupDevices (lightAddrs : List GoStr) (discoverResult : DiscoverResult KeylightDevice) :
    SetupOutcome :=
  match resolveAddrs lightAddrs with
  | .error p => ⟨[], some (AppError.portError p), false⟩
  | .ok devs =>
      if devs.isEmpty then ⟨discoverResult.devices, discoverResult.error, true⟩
      else ⟨devs, none, false⟩

/-! ### Helper lemmas about address resolution -/

/-- A character that does not occur has last index -1. -/
theorem lastIndex_of_not_mem (c : Char) :
    ∀ s : GoStr, c ∉ s → lastIndex s c = -1 := by
  intro s
  induction s with
  | nil => intro _; rfl
  | cons a rest ih =>
      intro h
      have h1 : ¬ a = c := fun e => h (e ▸ List.mem_cons_self a rest)
      have h2 : c ∉ rest := fun e => h (List.mem_cons_of_mem a e)
      rw [lastIndex, ih h2]
      norm_num [h1]

/-- A string with no colon fails to split, with the missing-port error. -/
theorem splitHostPort_no_colon (addr : GoStr) (h : ':' ∉ addr) :
    splitHostPort addr = .error (AddrError.missingPort addr) := by
  rw [splitHostPort]
  simp only [lastIndex_of_not_mem ':' addr h]
  norm_num

/-- Parsing the default port string yields 9123. -/
theorem atoi_defaultPort : atoi defaultPort = .ok 9123 := by decide

/-- An address that fails to split resolves verbatim with the default
port. -/
theorem resolveOne_of_split_error (addr : GoStr) (err : AddrError)
    (h : splitHostPort addr = .error err) :
    resolveOne addr = .ok ⟨addr, 9123⟩ := by
  rw [resolveOne]
  simp only [h, atoi_defaultPort]
  norm_num

/-- Successful resolution yields one device per supplied address. -/
theorem resolveAddrs_ok_length :
    ∀ (addrs : List GoStr) (devs : List KeylightDevice),
      resolveAddrs addrs = .ok devs → devs.length = addrs.length := by
  intro addrs
  induction addrs with
  | nil =>
      intro devs h
      simp only [resolveAddrs] at h
      injection h with h
      subst h
      rfl
  | cons a rest ih =>
      intro devs h
      simp only [resolveAddrs] at h
      cases h1 : resolveOne a with
      | error e => rw [h1] at h; cases h
      | ok d =>
          rw [h1] at h
          cases h2 : resolveAddrs rest with
          | error e => rw [h2] at h; cases h
          | ok ds =>
              rw [h2] at h
              injection h with h
              rw [← h]
              simp [ih ds h2]

/-- A member address that fails to resolve makes the whole resolution
fail. -/
theorem resolveAddrs_error_of_mem :
    ∀ (addrs : List GoStr) (a : GoStr), a ∈ addrs →
      ∀ e : GoStr, resolveOne a = .error e →
      ∃ p, resolveAddrs addrs = .error p := by
  intro addrs
  induction addrs with
  | nil => intro a h; cases h
  | cons b rest ih =>
      intro a hmem e he
      cases h1 : resolveOne b with
      | error e2 => exact ⟨e2, by simp [resolveAddrs, h1]⟩
      | ok d =>
          rcases List.mem_cons.mp hmem with h | h
          · rw [h] at he; simp [he] at h1
          · obtain ⟨p, hp⟩ := ih a h e he
            exact ⟨p, by simp [resolveAddrs, h1, hp]⟩

/-! ### Claims about address resolution -/

/-- C6: an address that splits into host and a port parsing to a value in
[1, 65535] resolves to exactly that host and port; an address with no colon
resolves to the whole string with the default port 9123; and an address
whose port is non-numeric or out of range fails the entire resolution with
the validation error, yielding no devices and invoking no discovery (hence
no network activity: device construction itself performs none). -/
theorem setup_port_rules (addr host port : GoStr) (n : Int) (addrs : List GoStr)
    (disc : DiscoverResult KeylightDevice) :
    (splitHostPort addr = .ok (host, port) → atoi port = .ok n → 1 ≤ n → n ≤ 65535 →
      resolveOne addr = .ok ⟨host, n⟩) ∧
    (':' ∉ addr → resolveOne addr = .ok ⟨addr, 9123⟩) ∧
    (addr ∈ addrs → splitHostPort addr = .ok (host, port) →
      (atoi port = .error () ∨ (atoi port = .ok n ∧ (n < 1 ∨ 65535 < n))) →
      ∃ p, setupDevices addrs disc = ⟨[], some (AppError.portError p), false⟩) := by
  refine ⟨?_, ?_, ?_⟩
  · intro hs ha h1 h2
    rw [resolveOne]
    simp only [hs, ha]
    rw [if_neg (by omega)]
  · intro h
    exact resolveOne_of_split_error addr _ (splitHostPort_no_colon addr h)
  · intro hmem hs hbad
    have hro : resolveOne addr = .error port := by
      rw [resolveOne]
      simp only [hs]
      rcases hbad with hb | ⟨hb, hrange⟩
      · simp [hb]
      · simp only [hb]
        rw [if_pos hrange]
    obtain ⟨p, hp⟩ := resolveAddrs_error_of_mem addrs addr hmem port hro
    exact ⟨p, by simp [setupDevices, hp]⟩

/-- Witness for C6: "h:80" resolves to host "h" port 80; "h" (no colon)
resolves with the default port 9123; "h:0" (out-of-range port) fails the
whole resolution with a validation error, no devices, no discovery. -/
theorem setup_port_rules_witness :
    resolveOne ['h', ':', '8', '0'] = .ok ⟨['h'], 80⟩ ∧
    resolveOne ['h'] = .ok ⟨['h'], 9123⟩ ∧
    (∃ p, setupDevices [['h', ':', '0']] ⟨[], none⟩ =
      ⟨[], some (AppError.portError p), false⟩) := by
  have h1 := setup_port_rules ['h', ':', '8', '0'] ['h'] ['8', '0'] 80 [] ⟨[], none⟩
  have h2 := setup_port_rules ['h'] [] [] 9123 [] ⟨[], none⟩
  have h3 := setup_port_rules ['h', ':', '0'] ['h'] ['0'] 0 [['h', ':', '0']] ⟨[], none⟩
  exact ⟨h1.1 (by decide) (by decide) (by decide) (by decide),
    h2.2.1 (by decide),
    h3.2.2 (by decide) (by decide) (Or.inr ⟨by decide, Or.inl (by decide)⟩)⟩

/-- C7: `setupDevices` invokes discovery exactly when the supplied address
list is empty; with an empty list it returns the discovery result (devices
and error) unchanged; with a non-empty list discovery is never invoked and
the explicitly resolved handles alone are returned. -/
theorem setup_uses_discovery_iff (addrs : List GoStr) (disc : DiscoverResult KeylightDevice) :
    ((setupDevices addrs disc).discoveryRan = true ↔ addrs = []) ∧
    (addrs = [] → setupDevices addrs disc = ⟨disc.devices, disc.error, true⟩) ∧
    (addrs ≠ [] → (setupDevices addrs disc).discoveryRan = false ∧
      ∀ devs, resolveAddrs addrs = .ok devs → setupDevices addrs disc = ⟨devs, none, false⟩) := by
  refine ⟨⟨?_, ?_⟩, ?_, ?_⟩
  · intro h
    cases hr : resolveAddrs addrs with
    | error e => simp [setupDevices, hr] at h
    | ok devs =>
        by_cases he : devs.isEmpty
        · have hlen := resolveAddrs_ok_length addrs devs hr
          rw [List.isEmpty_iff] at he
          rw [he] at hlen
          cases addrs with
          | nil => rfl
          | cons a rest => simp at hlen
        · simp [setupDevices, hr, he] at h
  · intro h
    subst h
    rfl
  · intro h
    subst h
    rfl
  · intro h
    cases hr : resolveAddrs addrs with
    | error e =>
        refine ⟨by simp [setupDevices, hr], ?_⟩
        intro devs hd
        exact Except.noConfusion hd
    | ok devs =>
        have hlen := resolveAddrs_ok_length addrs devs hr
        have hne : devs.isEmpty = false := by
          cases devs with
          | nil =>
              cases addrs with
              | nil => exact absurd rfl h
              | cons a rest => simp at hlen
          | cons d r => rfl
        refine ⟨by simp [setupDevices, hr, hne], ?_⟩
        intro devs2 hd
        have hdd : devs = devs2 := by injection hd
        subst hdd
        simp [setupDevices, hr, hne]

/-- Witness for C7: an empty list hands back the discovery result verbatim
(here one device plus the timeout error); a non-empty list runs no
discovery. -/
theorem setup_uses_discovery_iff_witness :
    setupDevices [] ⟨[⟨['a'], 9⟩], some AppError.timeout⟩ =
      ⟨[⟨['a'], 9⟩], some AppError.timeout, true⟩ ∧
    (setupDevices [['h']] ⟨[], none⟩).discoveryRan = false := by
  have h1 := setup_uses_discovery_iff [] ⟨[⟨['a'], 9⟩], some AppError.timeout⟩
  have h2 := setup_uses_discovery_iff [['h']] ⟨[], none⟩
  exact ⟨h1.2.1 rfl, (h2.2.2 (by decide)).1⟩

/-- C9: an address on which host-port splitting fails (no colon, too many
colons, ...) raises no validation error: it is accepted verbatim as the
host with the default port 9123; a validation error is only possible for
addresses that split successfully.  The address "a:b:c" splits with the
too-many-colons failure and resolves verbatim. -/
theorem split_failure_accepts_verbatim (addr : GoStr) :
    (∀ err, splitHostPort addr = .error err → resolveOne addr = .ok ⟨addr, 9123⟩) ∧
    (∀ e : GoStr, resolveOne addr = .error e → ∃ hp, splitHostPort addr = .ok hp) ∧
    splitHostPort ['a', ':', 'b', ':', 'c'] =
      .error (AddrError.tooManyColons ['a', ':', 'b', ':', 'c']) ∧
    resolveOne ['a', ':', 'b', ':', 'c'] = .ok ⟨['a', ':', 'b', ':', 'c'], 9123⟩ := by
  refine ⟨?_, ?_, by decide, by decide⟩
  · intro err h
    exact resolveOne_of_split_error addr err h
  · intro e he
    cases hs : splitHostPort addr with
    | error err =>
        rw [resolveOne_of_split_error addr err hs] at he
        cases he
    | ok hp => exact ⟨hp, rfl⟩

/-- Witness for C9: the one-character address "a" fails to split (missing
port) and resolves verbatim with port 9123. -/
theorem split_failure_accepts_verbatim_witness :
    resolveOne ['a'] = .ok ⟨['a'], 9123⟩ :=
  (split_failure_accepts_verbatim ['a']).1 (AddrError.missingPort ['a']) (by decide)

end Klctl
